import Mathlib

/-!
# LED layout constants and serial framing markers (`arduino/led_layout.hpp`)

The header declares five segment counts, their total, and two marker arrays
that delimit a serial frame `|Header|RGBRGBRGB....|Footer|`.

* `uintptr_t` constants are natural numbers; `LedsTotalAt w` re-evaluates the
  defining sum with wrap-around at pointer width `w`.
* `uint8_t` values are `Byte = Fin 256`.
* An array of unknown bound initialised from a string literal holds the
  characters of the literal followed by the terminating null character;
  `stringLiteralArray` is that initialisation rule.
-/

namespace LedLayout

/-- An 8-bit unsigned value (`uint8_t`). -/
abbrev Byte := Fin 256

/-- `constexpr uintptr_t LedsBottomRight = 6;` -/
def LedsBottomRight : Nat := 6

/-- `constexpr uintptr_t LedsRight = 19;` -/
def LedsRight : Nat := 19

/-- `constexpr uintptr_t LedsTop = 35;` -/
def LedsTop : Nat := 35

/-- `constexpr uintptr_t LedsLeft = 19;` -/
def LedsLeft : Nat := 19

/-- `constexpr uintptr_t LedsBottomLeft = 6;` -/
def LedsBottomLeft : Nat := 6

/-- `constexpr uintptr_t LedsTotal =
    LedsBottomRight + LedsRight + LedsTop + LedsLeft + LedsBottomLeft;` -/
def LedsTotal : Nat :=
  LedsBottomRight + LedsRight + LedsTop + LedsLeft + LedsBottomLeft

/-- Addition of two `uintptr_t` values on a target whose pointers are `w` bits wide. -/
def uintptrAdd (w a b : Nat) : Nat := (a + b) % 2 ^ w

/-- Multiplication of two `uintptr_t` values on a target whose pointers are `w` bits wide. -/
def uintptrMul (w a b : Nat) : Nat := (a * b) % 2 ^ w

/-- The initialiser of `LedsTotal`, evaluated left to right in `w`-bit unsigned arithmetic. -/
def LedsTotalAt (w : Nat) : Nat :=
  uintptrAdd w
    (uintptrAdd w
      (uintptrAdd w (uintptrAdd w (LedsBottomRight % 2 ^ w) (LedsRight % 2 ^ w)) (LedsTop % 2 ^ w))
      (LedsLeft % 2 ^ w))
    (LedsBottomLeft % 2 ^ w)

/-- The elements of `uint8_t a[] = "<s>"`: one byte per character of the (ASCII) literal,
then the terminating null character. -/
def stringLiteralArray (s : String) : List Byte :=
  s.toList.map (fun c => Fin.ofNat c.toNat) ++ [0]

/-- `constexpr uint8_t const SerialDataHeader[] = "WAMB";` -/
def SerialDataHeader : List Byte := stringLiteralArray "WAMB"

/-- `constexpr uint8_t const SerialDataFooter[] = "BMAW";` -/
def SerialDataFooter : List Byte := stringLiteralArray "BMAW"

/-- The segment counts in stripe order (counter clockwise from `S` to `E` in the layout
diagram): bottom-right, right, top, left, bottom-left. -/
def segmentCounts : List Nat :=
  [LedsBottomRight, LedsRight, LedsTop, LedsLeft, LedsBottomLeft]

/-- The index of the first LED of segment `k`: the sum of the counts of the segments before it. -/
def segmentStart (k : Nat) : Nat := (segmentCounts.take k).sum

/-- The number of LEDs of segment `k` (zero past the last segment). -/
def segmentCount (k : Nat) : Nat := segmentCounts.getD k 0

/-- One past the index of the last LED of segment `k`. -/
def segmentEnd (k : Nat) : Nat := segmentStart k + segmentCount k

/-- LED index `i` lies in the half-open range of segment `k`. -/
def inSegment (k i : Nat) : Prop := segmentStart k ≤ i ∧ i < segmentEnd k

instance (k i : Nat) : Decidable (inSegment k i) := by
  unfold inSegment; exact inferInstance

/-- The length of the C string stored in a byte array: the number of bytes before the
first null byte (`strlen`). -/
def cStringLength (a : List Byte) : Nat := (a.takeWhile (fun b => b ≠ 0)).length

/-! ## Frame codec

The header only states the wire shape in a comment, `|Header|RGBRGBRGB....|Footer|`; the
encoder and the decoder are not part of it. Both take the marker byte sequences as arguments,
so the results below hold for the declared arrays and for their 4-byte texts alike. -/

/-- A colour triple: three 8-bit channel values. -/
structure Color where
  channel0 : Byte
  channel1 : Byte
  channel2 : Byte
  deriving DecidableEq, Repr

/-- The failures of the frame codec. -/
inductive CodecError where
  | InvalidLength
  | FrameLengthMismatch
  | HeaderMismatch
  | FooterMismatch
  deriving DecidableEq, Repr

/-- Modelled from the spec: the payload of a frame, which the header file does not compute.
Each triple is serialised as three consecutive bytes in (channel0, channel1, channel2) order,
triples in sequence order. -/
def payload : List Color → List Byte
  | [] => []
  | c :: cs => c.channel0 :: c.channel1 :: c.channel2 :: payload cs

/-- Modelled from the spec: the encode operation of the frame codec, absent from the header
file. A sequence whose length is not `LedsTotal` is rejected with `InvalidLength`; otherwise
the output is the header bytes verbatim, the payload, and the footer bytes verbatim. The
marker byte sequences are arguments. -/
def encode (hdr ftr : List Byte) (x : List Color) : Except CodecError (List Byte) :=
  if x.length ≠ LedsTotal then .error .InvalidLength
  else .ok (hdr ++ payload x ++ ftr)

/-- Modelled from the spec: step 4 of decode, absent from the header file. Consecutive groups
of three bytes are read as colour triples, keeping byte order and triple order. -/
def triples : List Byte → List Color
  | a :: b :: c :: rest => ⟨a, b, c⟩ :: triples rest
  | _ => []

/-- Modelled from the spec: the decode operation of the frame codec, absent from the header
file. Step 1 checks the total length, step 2 the leading marker, step 3 the trailing marker,
step 4 reads the middle `3 * LedsTotal` bytes as triples. -/
def decode (hdr ftr : List Byte) (buf : List Byte) : Except CodecError (List Color) :=
  if buf.length ≠ hdr.length + 3 * LedsTotal + ftr.length then .error .FrameLengthMismatch
  else if buf.take hdr.length ≠ hdr then .error .HeaderMismatch
  else if buf.drop (buf.length - ftr.length) ≠ ftr then .error .FooterMismatch
  else .ok (triples ((buf.drop hdr.length).take (3 * LedsTotal)))

/-! ## Helper lemmas -/

theorem payload_length (x : List Color) : (payload x).length = 3 * x.length := by
  induction x with
  | nil => rfl
  | cons c cs ih => simp only [payload, List.length_cons, ih]; omega

theorem triples_payload (x : List Color) : triples (payload x) = x := by
  induction x with
  | nil => rfl
  | cons c cs ih => simp only [payload, triples, ih]

theorem decode_frame (hdr ftr : List Byte) (x : List Color) (h : x.length = LedsTotal) :
    decode hdr ftr (hdr ++ payload x ++ ftr) = .ok x := by
  have hp : (payload x).length = 3 * LedsTotal := by rw [payload_length, h]
  have h1 : (hdr ++ payload x ++ ftr).length = hdr.length + 3 * LedsTotal + ftr.length := by
    simp only [List.length_append, hp]
  have h2 : (hdr ++ payload x ++ ftr).take hdr.length = hdr := by
    rw [List.append_assoc, List.take_left]
  have h3 : (hdr ++ payload x ++ ftr).drop
      ((hdr ++ payload x ++ ftr).length - ftr.length) = ftr := by
    have : (hdr ++ payload x ++ ftr).length - ftr.length = (hdr ++ payload x).length := by
      simp only [List.length_append]; omega
    rw [this, List.drop_left]
  have h4 : ((hdr ++ payload x ++ ftr).drop hdr.length).take (3 * LedsTotal) = payload x := by
    rw [List.append_assoc, List.drop_left, ← hp, List.take_left]
  unfold decode
  rw [if_neg (not_not.mpr h1), if_neg (not_not.mpr h2), if_neg (not_not.mpr h3), h4,
    triples_payload]

theorem segmentStart_of_le (k : Nat) (h : 5 ≤ k) : segmentStart k = LedsTotal := by
  unfold segmentStart
  rw [List.take_of_length_le (by simpa [segmentCounts] using h)]
  rfl

theorem segmentCount_of_le (k : Nat) (h : 5 ≤ k) : segmentCount k = 0 := by
  unfold segmentCount
  rw [List.getD_eq_default _ _ (by simpa [segmentCounts] using h)]

theorem inSegment_lt (k i : Nat) (h : inSegment k i) : k < 5 := by
  by_contra hk
  have hk5 : 5 ≤ k := Nat.le_of_not_lt hk
  have h1 := segmentStart_of_le k hk5
  have h2 := segmentCount_of_le k hk5
  unfold inSegment segmentEnd at h
  omega

theorem segment_order (j k : Nat) (hjk : j < k) (hk : k < 5) :
    segmentStart j < segmentStart k ∧ segmentEnd j ≤ segmentStart k := by
  interval_cases k <;> interval_cases j <;> decide

theorem inSegment_unique (j k i : Nat) (hj : inSegment j i) (hk : inSegment k i) : j = k := by
  have hj5 := inSegment_lt j i hj
  have hk5 := inSegment_lt k i hk
  rcases Nat.lt_trichotomy j k with hlt | heq | hgt
  · have := (segment_order j k hlt hk5).2
    unfold inSegment at hj hk
    omega
  · exact heq
  · have := (segment_order k j hgt hj5).2
    unfold inSegment at hj hk
    omega

theorem inSegment_exists (i : Nat) (hi : i < LedsTotal) : ∃ k, inSegment k i := by
  have key : ∀ m : Fin 85, ∃ k : Fin 5, inSegment k m := by decide
  obtain ⟨k, hk⟩ := key ⟨i, hi⟩
  exact ⟨k, hk⟩

/-! ## The claims -/

/-- C1: the first four bytes of `SerialDataHeader` are 0x57, 0x41, 0x4D, 0x42, the ASCII
codes of `W`, `A`, `M`, `B`, and the first four bytes of `SerialDataFooter` are 0x42, 0x4D,
0x41, 0x57, the ASCII codes of `B`, `M`, `A`, `W`. -/
theorem marker_text_bytes :
    (SerialDataHeader[0]? = some 0x57 ∧ SerialDataHeader[1]? = some 0x41 ∧
      SerialDataHeader[2]? = some 0x4D ∧ SerialDataHeader[3]? = some 0x42) ∧
    (SerialDataFooter[0]? = some 0x42 ∧ SerialDataFooter[1]? = some 0x4D ∧
      SerialDataFooter[2]? = some 0x41 ∧ SerialDataFooter[3]? = some 0x57) ∧
    (SerialDataHeader.take 4).map Fin.val = ['W', 'A', 'M', 'B'].map Char.toNat ∧
    (SerialDataFooter.take 4).map Fin.val = ['B', 'M', 'A', 'W'].map Char.toNat := by
  decide

/-- C2 (as stated, refuted): the declared marker arrays do not have exactly 4 elements. -/
theorem marker_arrays_not_four :
    ¬ (SerialDataHeader.length = 4 ∧ SerialDataFooter.length = 4) := by
  decide

/-- C2 (amended): each marker array as declared has exactly 5 elements, namely the four
bytes of its ASCII text followed by the terminating null byte; the C string it stores is
4 bytes long. -/
theorem marker_arrays_five :
    SerialDataHeader.length = 5 ∧ SerialDataFooter.length = 5 ∧
    SerialDataHeader = [0x57, 0x41, 0x4D, 0x42, 0x00] ∧
    SerialDataFooter = [0x42, 0x4D, 0x41, 0x57, 0x00] ∧
    cStringLength SerialDataHeader = 4 ∧ cStringLength SerialDataFooter = 4 := by
  decide

/-- C3: `LedsTotal` is the sum of the five segment constants, these are 6, 19, 35, 19, 6 in
stripe order, and `LedsTotal` is 85. -/
theorem ledsTotal_eq :
    LedsTotal = LedsBottomRight + LedsRight + LedsTop + LedsLeft + LedsBottomLeft ∧
    LedsBottomRight = 6 ∧ LedsRight = 19 ∧ LedsTop = 35 ∧ LedsLeft = 19 ∧ LedsBottomLeft = 6 ∧
    LedsTotal = 85 := by
  decide

/-- C4 (as stated, refuted): with the declared array sizes as marker lengths, the frame
length is not `8 + 3 * LedsTotal = 263` with the footer at offset `4 + 3 * LedsTotal = 259`. -/
theorem frame_length_not_263 :
    ¬ (SerialDataHeader.length + 3 * LedsTotal + SerialDataFooter.length = 8 + 3 * LedsTotal ∧
       8 + 3 * LedsTotal = 263 ∧ 3 * LedsTotal = 255 ∧
       SerialDataHeader.length + 3 * LedsTotal = 4 + 3 * LedsTotal ∧
       4 + 3 * LedsTotal = 259) := by
  decide

/-- C4 (amended): with the declared array sizes (5 per marker) the frame length is
`10 + 3 * LedsTotal = 265` bytes and the footer starts at offset `5 + 3 * LedsTotal = 260`;
the payload part is `3 * LedsTotal = 255` bytes; with the 4-byte marker texts (terminating
null bytes left out) the frame length is `8 + 3 * LedsTotal = 263` and the footer starts at
offset `4 + 3 * LedsTotal = 259`. -/
theorem frame_length_declared :
    SerialDataHeader.length + 3 * LedsTotal + SerialDataFooter.length = 10 + 3 * LedsTotal ∧
    10 + 3 * LedsTotal = 265 ∧ 3 * LedsTotal = 255 ∧
    SerialDataHeader.length + 3 * LedsTotal = 5 + 3 * LedsTotal ∧ 5 + 3 * LedsTotal = 260 ∧
    cStringLength SerialDataHeader + 3 * LedsTotal + cStringLength SerialDataFooter
      = 8 + 3 * LedsTotal ∧
    8 + 3 * LedsTotal = 263 ∧
    cStringLength SerialDataHeader + 3 * LedsTotal = 4 + 3 * LedsTotal ∧
    4 + 3 * LedsTotal = 259 := by
  decide

/-- C5: the five segments tile the LED index range in stripe order. Their starts are the
running sums 0, 6, 25, 60, 79; index 0 is the first LED of the bottom-right segment; a later
segment starts strictly after an earlier one starts and not before it ends; no index lies in
two segments; the last segment ends at `LedsTotal`; every index below `LedsTotal` lies in
exactly one segment. -/
theorem segments_tile (i : Nat) (hi : i < LedsTotal) :
    (List.range 5).map segmentStart = [0, 6, 25, 60, 79] ∧
    (List.range 5).map segmentCount
      = [LedsBottomRight, LedsRight, LedsTop, LedsLeft, LedsBottomLeft] ∧
    (segmentStart 0 = 0 ∧ inSegment 0 0) ∧
    (∀ j k, j < k → k < 5 → segmentStart j < segmentStart k ∧ segmentEnd j ≤ segmentStart k) ∧
    (∀ j k m, inSegment j m → inSegment k m → j = k) ∧
    segmentEnd 4 = LedsTotal ∧
    ∃! k, inSegment k i := by
  refine ⟨by decide, by decide, by decide, segment_order, inSegment_unique, by decide, ?_⟩
  obtain ⟨k, hk⟩ := inSegment_exists i hi
  exact ⟨k, hk, fun k2 hk2 => inSegment_unique k2 k i hk2 hk⟩

/-- C5, at a concrete index: LED 30 lies in exactly one segment. -/
theorem segments_tile_witness :
    30 < LedsTotal ∧ ∃! k, inSegment k 30 :=
  ⟨by decide, (segments_tile 30 (by decide)).2.2.2.2.2.2⟩

/-- C6: round trip of the frame codec. For every pair of marker byte sequences and every
sequence `x` of exactly `LedsTotal` colour triples, `encode` succeeds with the frame
header, payload, footer, and `decode` of that frame succeeds and returns `x`. -/
theorem decode_encode (hdr ftr : List Byte) (x : List Color) (h : x.length = LedsTotal) :
    encode hdr ftr x = .ok (hdr ++ payload x ++ ftr) ∧
    (encode hdr ftr x >>= decode hdr ftr) = .ok x := by
  have he : encode hdr ftr x = .ok (hdr ++ payload x ++ ftr) := by
    unfold encode
    rw [if_neg (not_not.mpr h)]
  refine ⟨he, ?_⟩
  rw [he]
  exact decode_frame hdr ftr x h

/-- C6, at a concrete input: 85 black triples between the declared markers. -/
theorem decode_encode_witness :
    (List.replicate 85 (Color.mk 0 0 0)).length = LedsTotal ∧
    (encode SerialDataHeader SerialDataFooter (List.replicate 85 (Color.mk 0 0 0))
      >>= decode SerialDataHeader SerialDataFooter)
      = .ok (List.replicate 85 (Color.mk 0 0 0)) :=
  ⟨by decide,
    (decode_encode SerialDataHeader SerialDataFooter (List.replicate 85 (Color.mk 0 0 0))
      (by decide)).2⟩

/-- C7: byte `k` of `SerialDataFooter` equals byte `3 - k` of `SerialDataHeader` for every
`k` in 0..3, and the two markers differ, already at byte 0. -/
theorem footer_is_reversed_header :
    (∀ k : Fin 4, SerialDataFooter[k.val]? = SerialDataHeader[3 - k.val]?) ∧
    (∀ k : Fin 4, (SerialDataFooter[k.val]?).isSome = true) ∧
    SerialDataFooter.take 4 = (SerialDataHeader.take 4).reverse ∧
    SerialDataHeader ≠ SerialDataFooter ∧
    SerialDataHeader[0]? ≠ SerialDataFooter[0]? := by
  decide

/-- C8: the layout is left-right symmetric and the two bottom corner runs together are
shorter than the top edge. -/
theorem layout_symmetric :
    LedsRight = LedsLeft ∧ LedsBottomRight = LedsBottomLeft ∧
    LedsBottomRight + LedsBottomLeft < LedsTop := by
  decide

/-- C9: evaluated in unsigned arithmetic modulo 2^16, 2^32 or 2^64, the sum defining
`LedsTotal` is the mathematical sum 85 and three times it is 255; `3 * LedsTotal` plus both
marker lengths is below 2^16; 255 is the largest value of a `uint8_t`; the whole frame
length does not fit in a `uint8_t`. -/
theorem constants_do_not_wrap :
    (LedsTotalAt 16 = LedsTotal ∧ LedsTotalAt 32 = LedsTotal ∧ LedsTotalAt 64 = LedsTotal) ∧
    LedsTotal = 85 ∧
    (uintptrMul 16 3 (LedsTotalAt 16) = 255 ∧ uintptrMul 32 3 (LedsTotalAt 32) = 255 ∧
      uintptrMul 64 3 (LedsTotalAt 64) = 255) ∧
    3 * LedsTotal = 255 ∧
    3 * LedsTotal + SerialDataHeader.length + SerialDataFooter.length < 2 ^ 16 ∧
    (3 * LedsTotal < 2 ^ 8 ∧ 3 * LedsTotal + 1 = 2 ^ 8) ∧
    ¬ (SerialDataHeader.length + 3 * LedsTotal + SerialDataFooter.length < 2 ^ 8) ∧
    ¬ (cStringLength SerialDataHeader + 3 * LedsTotal + cStringLength SerialDataFooter
        < 2 ^ 8) := by
  decide

end LedLayout
